import Mathlib

/-!
# Verification of the diag-device relay (`src/main.rs`)

Shallow embedding of the device-control-and-relay program: the framed
read/write codec of `DiagDevice::read_response` / `DiagDevice::write_request`,
the ioctl fallback of `enable_frame_readwrite` / `determine_use_mdm`, and
`DiagDevice::new` / `DiagDevice::try_clone`.

Bytes are modelled as `Nat` (device bytes are `u8`, hence `< 256`); machine
integers as `Int`/`Nat` with explicit wrap-around where it matters.  The
fallible syscalls (`File::read`, `ioctl`, `write`, `File::try_clone`) are
modelled by passing their results in explicitly, so every operation is a pure
function of the device state and the syscall outcomes.
-/

namespace Rayhunter

/-- Rust constant `BUFFER_LEN: usize = 1024 * 1024 * 10`. -/
def BUFFER_LEN : Nat := 1024 * 1024 * 10

/-- Rust constant `USER_SPACE_DATA_TYPE: i32 = 32`. -/
def USER_SPACE_DATA_TYPE : Int := 32

/-- Rust constant `MEMORY_DEVICE_MODE: i32 = 2`. -/
def MEMORY_DEVICE_MODE : Int := 2

/-- The error kinds of `DiagDeviceError` (the human-readable message strings
are dropped from the model). -/
inductive DiagError where
  | ioError
  | initializationFailed
  | deviceReadFailed
deriving DecidableEq, Repr

/-- Outcome of one `read_response` call.  `panics` models a `bytes::Buf`
panic (a 4-byte header read crossing the end of the cursor's buffer);
`ok none` is Rust's `Ok(None)`, `ok (some msgs)` is `Ok(Some(msgs))`. -/
inductive ReadOutcome where
  | err (e : DiagError)
  | panics
  | ok (batch : Option (List (List Nat)))
deriving DecidableEq, Repr

/-- Result of the device `self.file.read(&mut buf)` call: an OS error, or
the bytes actually placed at the front of the buffer (`data.length` is the
returned byte count; a read never returns more than `BUFFER_LEN` bytes). -/
inductive ReadResult where
  | ioErr
  | bytes (data : List Nat)
deriving DecidableEq

/-- The read buffer after the `read` call: `vec![0; BUFFER_LEN]` with the
returned bytes written over its front. -/
def padTo (data : List Nat) : List Nat :=
  data ++ List.replicate (BUFFER_LEN - data.length) 0

/-- Model of `Cursor::get_u32_le` at position `pos`: reads 4 little-endian
bytes, or `none` (a panic in Rust) when fewer than 4 bytes remain. -/
def readU32le (buf : List Nat) (pos : Nat) : Option Nat :=
  if pos + 4 ≤ buf.length then
    some (buf.getD pos 0 + 256 * buf.getD (pos + 1) 0 +
      65536 * buf.getD (pos + 2) 0 + 16777216 * buf.getD (pos + 3) 0)
  else none

/-- Model of `Cursor::get_i32_le`: the same 4 bytes read as a two's-complement
`i32`. -/
def readI32le (buf : List Nat) (pos : Nat) : Option Int :=
  (readU32le buf pos).map (fun u =>
    if u < 2147483648 then (u : Int) else (u : Int) - 4294967296)

/-- The `for _ in 0..num_messages` loop of `read_response`: at position `pos`
read a 4-byte length, then `read_exact` that many payload bytes
(`Err(UnexpectedEof)`, i.e. an IO error, when the declared length exceeds the
bytes remaining in the cursor's buffer). -/
def readMessages (buf : List Nat) (pos : Nat) : Nat → ReadOutcome
  | 0 => .ok (some [])
  | Nat.succ n =>
    match readU32le buf pos with
    | none => .panics
    | some len =>
      if pos + 4 + len ≤ buf.length then
        match readMessages buf (pos + 4 + len) n with
        | .ok (some rest) => .ok (some (((buf.drop (pos + 4)).take len) :: rest))
        | r => r
      else .err .ioError

/-- Model of `DiagDevice::read_response`: allocate a `BUFFER_LEN` zeroed
buffer, read into it, fail with `DeviceReadFailed` on fewer than 4 returned
bytes, parse the tag over the WHOLE buffer (the `Cursor` wraps `buf`, not
`buf[..bytes_read]`), return `Ok(None)` on a non-user-space tag, otherwise
parse `num_messages` length-prefixed messages. -/
def read_response (rr : ReadResult) : ReadOutcome :=
  match rr with
  | .ioErr => .err .ioError
  | .bytes data =>
    if data.length < 4 then .err .deviceReadFailed
    else
      match readI32le (padTo data) 0 with
      | none => .panics
      | some tag =>
        if tag = USER_SPACE_DATA_TYPE then
          match readU32le (padTo data) 4 with
          | none => .panics
          | some n => readMessages (padTo data) 8 n
        else .ok none

/-- Little-endian byte encoding of a `u32` value (`put_u32_le`). -/
def u32le (n : Nat) : List Nat :=
  [n % 256, n / 256 % 256, n / 65536 % 256, n / 16777216 % 256]

/-- Little-endian byte encoding of an `i32` value (`put_i32_le`). -/
def i32le (v : Int) : List Nat := u32le (v % 4294967296).toNat

/-- The body of a response buffer: each frame length-prefixed. -/
def encodeFrames : List (List Nat) → List Nat
  | [] => []
  | f :: fs => u32le f.length ++ f ++ encodeFrames fs

/-- The device response wire format: tag 32, message count, then each frame
length-prefixed, all little-endian. -/
def encodeResponse (frames : List (List Nat)) : List Nat :=
  i32le USER_SPACE_DATA_TYPE ++ u32le frames.length ++ encodeFrames frames

/-- Bytes a batch of messages occupies on the wire: a 4-byte length header
plus the payload, per message. -/
def msgsSize : List (List Nat) → Nat
  | [] => 0
  | m :: r => 4 + m.length + msgsSize r

/-!
## Evaluation-friendly form of the parser

The padded buffer is 10 MiB long, so evaluating `read_response` on concrete
inputs through the kernel is impractical.  Since the padding bytes are zero
and `List.getD` defaults to zero, the parse over `padTo data` equals a parse
that indexes `data` directly; `readMessagesPos_padTo` and friends prove the
two forms equal, and concrete witnesses evaluate the fast form. -/

/-- Fast form of `readU32le (padTo data) pos` (for `data.length ≤ BUFFER_LEN`). -/
def readU32leF (data : List Nat) (pos : Nat) : Option Nat :=
  if pos + 4 ≤ BUFFER_LEN then
    some (data.getD pos 0 + 256 * data.getD (pos + 1) 0 +
      65536 * data.getD (pos + 2) 0 + 16777216 * data.getD (pos + 3) 0)
  else none

/-- Fast form of `readI32le (padTo data) pos`. -/
def readI32leF (data : List Nat) (pos : Nat) : Option Int :=
  (readU32leF data pos).map (fun u =>
    if u < 2147483648 then (u : Int) else (u : Int) - 4294967296)

/-- Fast form of the payload slice `((padTo data).drop pos).take len`. -/
def sliceF (data : List Nat) (pos len : Nat) : List Nat :=
  (List.range len).map (fun i => data.getD (pos + i) 0)

/-- Fast form of `readMessages (padTo data) pos n`. -/
def readMessagesF (data : List Nat) (pos : Nat) : Nat → ReadOutcome
  | 0 => .ok (some [])
  | Nat.succ n =>
    match readU32leF data pos with
    | none => .panics
    | some len =>
      if pos + 4 + len ≤ BUFFER_LEN then
        match readMessagesF data (pos + 4 + len) n with
        | .ok (some rest) => .ok (some (sliceF data (pos + 4) len :: rest))
        | r => r
      else .err .ioError

/-- Fast form of `read_response (.bytes data)`. -/
def read_response_fast (data : List Nat) : ReadOutcome :=
  if data.length < 4 then .err .deviceReadFailed
  else
    match readI32leF data 0 with
    | none => .panics
    | some tag =>
      if tag = USER_SPACE_DATA_TYPE then
        match readU32leF data 4 with
        | none => .panics
        | some n => readMessagesF data 8 n
      else .ok none

/-!
## Device construction, cloning, and the write path -/

/-- Which calling convention a `DIAG_IOCTL_SWITCH_LOGGING` ioctl used:
`legacy` passes the mode value directly, `extended` passes a pointer to the
three-word parameter block `[mode, -1, 0]`. -/
inductive SwitchCall where
  | legacy
  | extended
deriving DecidableEq, Repr

/-- Model of `enable_frame_readwrite(fd, mode)`.  The two ioctl return values
are supplied by the environment (`extendedRet` is only consulted when the
legacy call fails).  Returns the list of ioctl calls actually issued, in
order, together with the Rust function's result. -/
def enable_frame_readwrite (legacyRet extendedRet : Int) :
    List SwitchCall × Except DiagError Unit :=
  if legacyRet < 0 then
    if extendedRet < 0 then ([.legacy, .extended], .error .initializationFailed)
    else ([.legacy, .extended], .ok ())
  else ([.legacy], .ok ())

/-- Model of `determine_use_mdm(fd)`: the `DIAG_IOCTL_REMOTE_DEV` ioctl gets a
pointer to a stack `i32` initialized to 0; `ioctlRet` is the ioctl's return
value and `ioctlOut` the value left in that out-parameter (0 when the kernel
does not write it). -/
def determine_use_mdm (ioctlRet : Int) (ioctlOut : Int) : Except DiagError Int :=
  if ioctlRet < 0 then .error .initializationFailed else .ok ioctlOut

/-- The `DiagDevice` struct: a file handle (modelled as a descriptor number)
and the `use_mdm: i32` flag. -/
structure DiagDevice where
  file : Nat
  use_mdm : Int
deriving DecidableEq, Repr

/-- Environment for `DiagDevice::new`: the outcomes of the `open` call and of
the three ioctls it may issue. -/
structure DeviceEnv where
  openResult : Option Nat
  legacyRet : Int
  extendedRet : Int
  remoteDevRet : Int
  remoteDevOut : Int

/-- Model of `DiagDevice::new()`: open `/dev/diag` (an IO error propagates),
then `enable_frame_readwrite`, then `determine_use_mdm`, each failure
propagating; on success the device carries the reported `use_mdm`. -/
def DiagDevice.new (env : DeviceEnv) : Except DiagError DiagDevice :=
  match env.openResult with
  | none => .error .ioError
  | some fd =>
    match (enable_frame_readwrite env.legacyRet env.extendedRet).2 with
    | .error e => .error e
    | .ok _ =>
      match determine_use_mdm env.remoteDevRet env.remoteDevOut with
      | .error e => .error e
      | .ok m => .ok ⟨fd, m⟩

/-- Model of `DiagDevice::try_clone`: `self.file.try_clone()` yields a fresh
descriptor (or an IO error, propagated); `use_mdm` is copied unchanged. -/
def try_clone (d : DiagDevice) (cloneResult : Option Nat) :
    Except DiagError DiagDevice :=
  match cloneResult with
  | none => .error .ioError
  | some fd => .ok ⟨fd, d.use_mdm⟩

/-- The outgoing buffer built by `DiagDevice::write_request`: the tag, then
(only when `use_mdm > 0`) the `-1` marker, then the payload verbatim. -/
def write_request_buf (use_mdm : Int) (req : List Nat) : List Nat :=
  i32le USER_SPACE_DATA_TYPE ++ (if use_mdm > 0 then i32le (-1) else []) ++ req

/-- Model of `DiagDevice::write_request` as a state transformer: the struct is
returned unchanged (the Rust body assigns no field), together with the bytes
handed to `libc::write` and the call's result; `writeRet` is the result of
the `libc::write` call, negative meaning failure (`DeviceReadFailed`). -/
def write_request (d : DiagDevice) (req : List Nat) (writeRet : Int) :
    DiagDevice × List Nat × Except DiagError Unit :=
  (d, write_request_buf d.use_mdm req,
    if writeRet < 0 then .error .deviceReadFailed else .ok ())

/-- Model of `DiagDevice::read_response` as a state transformer on the struct:
the Rust body assigns no field of `self`, so the struct is returned
unchanged alongside the read outcome. -/
def read_response_st (d : DiagDevice) (rr : ReadResult) : DiagDevice × ReadOutcome :=
  (d, read_response rr)

/-!
## Helper lemmas about the padded read buffer -/

theorem padTo_length (data : List Nat) (h : data.length ≤ BUFFER_LEN) :
    (padTo data).length = BUFFER_LEN := by
  simp only [padTo, List.length_append, List.length_replicate]
  omega

theorem getD_drop_zero (l : List Nat) (i j : Nat) :
    (l.drop i).getD j 0 = l.getD (i + j) 0 := by
  simp [List.getD_eq_getElem?_getD, List.getElem?_drop]

theorem padTo_getD (data : List Nat) (i : Nat) :
    (padTo data).getD i 0 = data.getD i 0 := by
  unfold padTo
  rcases lt_or_ge i data.length with h | h
  · rw [List.getD_append _ _ _ _ h]
  · rw [List.getD_append_right _ _ _ _ h]
    rw [List.getD_eq_getElem?_getD, List.getD_eq_getElem?_getD,
      List.getElem?_replicate, List.getElem?_eq_none (by omega)]
    split <;> rfl

theorem readU32le_padTo (data : List Nat) (h : data.length ≤ BUFFER_LEN)
    (pos : Nat) : readU32le (padTo data) pos = readU32leF data pos := by
  unfold readU32le readU32leF
  rw [padTo_length data h]
  split
  · simp only [padTo_getD]
  · rfl

theorem readI32le_padTo (data : List Nat) (h : data.length ≤ BUFFER_LEN)
    (pos : Nat) : readI32le (padTo data) pos = readI32leF data pos := by
  unfold readI32le readI32leF
  rw [readU32le_padTo data h pos]

theorem slice_padTo (data : List Nat) (h : data.length ≤ BUFFER_LEN)
    (pos len : Nat) (hfit : pos + len ≤ BUFFER_LEN) :
    ((padTo data).drop pos).take len = sliceF data pos len := by
  have hlen : (padTo data).length = BUFFER_LEN := padTo_length data h
  apply List.ext_getElem
  · simp only [List.length_take, List.length_drop, sliceF, List.length_map,
      List.length_range, hlen]
    omega
  · intro i h1 h2
    have hb : pos + i < (padTo data).length := by
      simp only [List.length_take, List.length_drop, hlen] at h1
      omega
    rw [List.getElem_take, List.getElem_drop]
    simp only [sliceF, List.getElem_map, List.getElem_range]
    rw [← padTo_getD data (pos + i)]
    exact (List.getD_eq_getElem (padTo data) 0 hb).symm

theorem readMessages_padTo (data : List Nat) (h : data.length ≤ BUFFER_LEN) :
    ∀ (n : Nat) (pos : Nat),
      readMessages (padTo data) pos n = readMessagesF data pos n := by
  intro n
  induction n with
  | zero => intro pos; rfl
  | succ n ih =>
    intro pos
    unfold readMessages readMessagesF
    rw [readU32le_padTo data h pos]
    cases hu : readU32leF data pos with
    | none => rfl
    | some len =>
      dsimp only
      rw [padTo_length data h]
      by_cases hle : pos + 4 + len ≤ BUFFER_LEN
      · rw [if_pos hle, if_pos hle, ih (pos + 4 + len),
          slice_padTo data h (pos + 4) len (by omega)]
      · rw [if_neg hle, if_neg hle]

theorem read_response_eq_fast (data : List Nat) (h : data.length ≤ BUFFER_LEN) :
    read_response (.bytes data) = read_response_fast data := by
  simp only [read_response, read_response_fast, readI32le_padTo data h,
    readU32le_padTo data h, readMessages_padTo data h]

/-!
## Decoding an encoded response (round trip) -/

theorem readU32le_of_drop (buf tail : List Nat) (pos n : Nat)
    (hdrop : buf.drop pos = u32le n ++ tail) (hn : n < 4294967296) :
    readU32le buf pos = some n := by
  have hL : buf.length - pos = 4 + tail.length := by
    have := congrArg List.length hdrop
    simp [u32le] at this
    omega
  have hpos4 : pos + 4 ≤ buf.length := by omega
  have hb : ∀ i, i < 4 → buf.getD (pos + i) 0 = (u32le n).getD i 0 := by
    intro i hi
    rw [← getD_drop_zero, hdrop,
      List.getD_append _ _ _ _ (by simp only [u32le, List.length_cons]; omega)]
  have h0 := hb 0 (by omega)
  have h1 := hb 1 (by omega)
  have h2 := hb 2 (by omega)
  have h3 := hb 3 (by omega)
  simp only [u32le, Nat.add_zero, List.getD_cons_zero, List.getD_cons_succ] at h0 h1 h2 h3
  unfold readU32le
  rw [if_pos hpos4, h0, h1, h2, h3]
  simp only [Option.some.injEq]
  omega

theorem encodeFrames_cons (f : List Nat) (fs : List (List Nat)) :
    encodeFrames (f :: fs) = u32le f.length ++ ((f ++ encodeFrames fs)) := by
  simp [encodeFrames, List.append_assoc]

theorem encodeFrames_length_lower (fs : List (List Nat)) :
    4 * fs.length ≤ (encodeFrames fs).length := by
  induction fs with
  | nil => simp [encodeFrames]
  | cons f fs ih =>
    simp only [encodeFrames, u32le, List.length_append, List.length_cons,
      List.length_nil, List.length_cons] at ih ⊢
    omega

theorem roundtrip_messages (buf : List Nat) (hbuf : buf.length < 4294967296) :
    ∀ (frames : List (List Nat)) (pos : Nat) (rest : List Nat),
      buf.drop pos = encodeFrames frames ++ rest →
      readMessages buf pos frames.length = .ok (some frames) := by
  intro frames
  induction frames with
  | nil => intro pos rest hdrop; rfl
  | cons f fs ih =>
    intro pos rest hdrop
    rw [encodeFrames_cons, List.append_assoc] at hdrop
    have hL := congrArg List.length hdrop
    simp only [u32le, List.length_drop, List.length_append, List.length_cons,
      List.length_nil] at hL
    have hflen : f.length < 4294967296 := by omega
    have hu := readU32le_of_drop buf _ pos f.length hdrop hflen
    have hle : pos + 4 + f.length ≤ buf.length := by omega
    have hdrop2 : buf.drop (pos + 4 + f.length) = encodeFrames fs ++ rest := by
      have e1 : (buf.drop pos).drop (4 + f.length) = buf.drop (pos + 4 + f.length) := by
        rw [List.drop_drop, Nat.add_assoc]
      rw [← e1, hdrop]
      have e2 : u32le f.length ++ ((f ++ encodeFrames fs) ++ rest)
          = (u32le f.length ++ f) ++ (encodeFrames fs ++ rest) := by
        simp [List.append_assoc]
      rw [e2, show (4 + f.length) = (u32le f.length ++ f).length from by
        simp only [List.length_append, u32le, List.length_cons, List.length_nil]
        , List.drop_left]
    have hslice : (buf.drop (pos + 4)).take f.length = f := by
      have e1 : (buf.drop pos).drop 4 = buf.drop (pos + 4) := by rw [List.drop_drop]
      rw [← e1, hdrop]
      have e2 : u32le f.length ++ ((f ++ encodeFrames fs) ++ rest)
          = u32le f.length ++ (f ++ (encodeFrames fs ++ rest)) := by
        simp [List.append_assoc]
      rw [e2, show (4:Nat) = (u32le f.length).length from by simp [u32le],
        List.drop_left]
      exact List.take_left f _
    show readMessages buf pos (fs.length + 1) = .ok (some (f :: fs))
    unfold readMessages
    rw [hu]
    dsimp only
    rw [if_pos hle, hslice, ih (pos + 4 + f.length) rest hdrop2]

/-- For any sequence of frames whose encoding fits the read buffer (a device
read can return at most `BUFFER_LEN` bytes), decoding the response-wire-format
encoding with `read_response` recovers exactly that sequence. -/
theorem read_response_encodeResponse (frames : List (List Nat))
    (h : (encodeResponse frames).length ≤ BUFFER_LEN) :
    read_response (.bytes (encodeResponse frames)) = .ok (some frames) := by
  have hBL : BUFFER_LEN = 10485760 := by decide
  have hdata : (encodeResponse frames).length = 8 + (encodeFrames frames).length := by
    simp only [encodeResponse, i32le, u32le, List.length_append, List.length_cons,
      List.length_nil]
  have hbuflen : (padTo (encodeResponse frames)).length = BUFFER_LEN :=
    padTo_length _ h
  have hsplit : padTo (encodeResponse frames)
      = (i32le USER_SPACE_DATA_TYPE ++ u32le frames.length) ++
        (encodeFrames frames ++
          List.replicate (BUFFER_LEN - (encodeResponse frames).length) 0) := by
    simp [padTo, encodeResponse, List.append_assoc]
  have hdrop0 : (padTo (encodeResponse frames)).drop 0
      = u32le 32 ++ (u32le frames.length ++
        (encodeFrames frames ++
          List.replicate (BUFFER_LEN - (encodeResponse frames).length) 0)) := by
    rw [List.drop_zero, hsplit,
      show i32le USER_SPACE_DATA_TYPE = u32le 32 from by decide]
    simp [List.append_assoc]
  have htagU := readU32le_of_drop _ _ 0 32 hdrop0 (by norm_num)
  have htag : readI32le (padTo (encodeResponse frames)) 0
      = some USER_SPACE_DATA_TYPE := by
    unfold readI32le
    rw [htagU]
    decide
  have hdrop4 : (padTo (encodeResponse frames)).drop 4
      = u32le frames.length ++
        (encodeFrames frames ++
          List.replicate (BUFFER_LEN - (encodeResponse frames).length) 0) := by
    rw [hsplit]
    have e : (i32le USER_SPACE_DATA_TYPE ++ u32le frames.length) ++
        (encodeFrames frames ++
          List.replicate (BUFFER_LEN - (encodeResponse frames).length) 0)
        = i32le USER_SPACE_DATA_TYPE ++ (u32le frames.length ++
          (encodeFrames frames ++
            List.replicate (BUFFER_LEN - (encodeResponse frames).length) 0)) := by
      simp [List.append_assoc]
    rw [e, show (4:Nat) = (i32le USER_SPACE_DATA_TYPE).length from by decide,
      List.drop_left]
  have hcount_lt : frames.length < 4294967296 := by
    have h4 := encodeFrames_length_lower frames
    omega
  have hcountU := readU32le_of_drop _ _ 4 frames.length hdrop4 hcount_lt
  have hdrop8 : (padTo (encodeResponse frames)).drop 8
      = encodeFrames frames ++
        List.replicate (BUFFER_LEN - (encodeResponse frames).length) 0 := by
    rw [hsplit,
      show (8:Nat) = (i32le USER_SPACE_DATA_TYPE ++ u32le frames.length).length
        from by simp [i32le, u32le],
      List.drop_left]
  have hmsgs := roundtrip_messages (padTo (encodeResponse frames))
    (by rw [hbuflen]; decide) frames 8 _ hdrop8
  unfold read_response
  dsimp only
  rw [if_neg (by omega : ¬ (encodeResponse frames).length < 4), htag]
  dsimp only
  rw [if_pos rfl, hcountU]
  exact hmsgs

/-!
## Every successful parse stays inside the fixed buffer -/

theorem readMessages_ok_bounds (buf : List Nat) :
    ∀ (n : Nat) (pos : Nat) (msgs : List (List Nat)),
      pos ≤ buf.length →
      readMessages buf pos n = .ok (some msgs) →
      pos + msgsSize msgs ≤ buf.length ∧ ∀ m ∈ msgs, ∀ b ∈ m, b ∈ buf := by
  intro n
  induction n with
  | zero =>
    intro pos msgs hpos hok
    have hm : msgs = [] := by
      have : ReadOutcome.ok (some []) = .ok (some msgs) := hok
      simpa using this.symm
    subst hm
    simp [msgsSize]
    omega
  | succ n ih =>
    intro pos msgs hpos hok
    unfold readMessages at hok
    cases hu : readU32le buf pos with
    | none => rw [hu] at hok; exact absurd hok (by simp)
    | some len =>
      rw [hu] at hok
      dsimp only at hok
      by_cases hle : pos + 4 + len ≤ buf.length
      · rw [if_pos hle] at hok
        cases hr : readMessages buf (pos + 4 + len) n with
        | ok b =>
          cases b with
          | some rest =>
            rw [hr] at hok
            dsimp only at hok
            have hm : ((buf.drop (pos + 4)).take len) :: rest = msgs := by
              simpa using hok
            have hrec := ih (pos + 4 + len) rest (by omega) hr
            have hslicelen : ((buf.drop (pos + 4)).take len).length = len := by
              simp only [List.length_take, List.length_drop]
              omega
            constructor
            · rw [← hm]
              simp only [msgsSize, hslicelen]
              omega
            · intro m hmem b hb
              rw [← hm] at hmem
              rcases List.mem_cons.mp hmem with h1 | h1
              · subst h1
                exact List.mem_of_mem_drop (List.mem_of_mem_take hb)
              · exact hrec.2 m h1 b hb
          | none =>
            rw [hr] at hok
            exact absurd hok (by simp)
        | err e => rw [hr] at hok; exact absurd hok (by simp)
        | panics => rw [hr] at hok; exact absurd hok (by simp)
      · rw [if_neg hle] at hok
        exact absurd hok (by simp)

/-!
## The claims -/

/-- Claim C2: for every finite sequence of frames (whose encoding fits the
fixed read buffer — a device read cannot return more than `BUFFER_LEN`
bytes), decoding the response-wire-format encoding (tag 32, message count,
then each frame length-prefixed, little-endian) with `read_response` yields
exactly the same frames in the same order. -/
theorem read_response_roundtrip (frames : List (List Nat))
    (h : (encodeResponse frames).length ≤ BUFFER_LEN) :
    read_response (.bytes (encodeResponse frames)) = .ok (some frames) :=
  read_response_encodeResponse frames h

/-- Witness for C2 at the two-frame sequence `[[1,2],[3]]`. -/
theorem read_response_roundtrip_witness :
    (encodeResponse [[1, 2], [3]]).length ≤ BUFFER_LEN ∧
    read_response (.bytes (encodeResponse [[1, 2], [3]])) = .ok (some [[1, 2], [3]]) :=
  ⟨by decide, read_response_roundtrip [[1, 2], [3]] (by decide)⟩

/-- Claim C3: `write_request_buf` with the remote-routing flag unset
(`use_mdm > 0` false) is exactly the 4-byte little-endian tag 32 followed by
the payload verbatim, `4 + len(payload)` bytes; with the flag set it is
exactly the tag, then the little-endian marker `-1`, then the payload
verbatim, `8 + len(payload)` bytes. -/
theorem write_request_frame_layout (use_mdm : Int) (req : List Nat) :
    (¬ use_mdm > 0 →
      write_request_buf use_mdm req = [32, 0, 0, 0] ++ req ∧
      (write_request_buf use_mdm req).length = 4 + req.length) ∧
    (use_mdm > 0 →
      write_request_buf use_mdm req = [32, 0, 0, 0] ++ [255, 255, 255, 255] ++ req ∧
      (write_request_buf use_mdm req).length = 8 + req.length) := by
  unfold write_request_buf
  constructor
  · intro h
    rw [if_neg h, show i32le USER_SPACE_DATA_TYPE = [32, 0, 0, 0] from by decide]
    constructor
    · simp
    · simp only [List.length_append, List.length_cons, List.length_nil]
  · intro h
    rw [if_pos h, show i32le USER_SPACE_DATA_TYPE = [32, 0, 0, 0] from by decide,
      show i32le (-1) = [255, 255, 255, 255] from by decide]
    constructor
    · rfl
    · simp only [List.length_append, List.length_cons, List.length_nil]

/-- Witness for C3 at `use_mdm = 0` and `use_mdm = 1` with payload `[9, 8]`. -/
theorem write_request_frame_layout_witness :
    (write_request_buf 0 [9, 8] = [32, 0, 0, 0] ++ [9, 8] ∧
      (write_request_buf 0 [9, 8]).length = 4 + 2) ∧
    (write_request_buf 1 [9, 8] = [32, 0, 0, 0] ++ [255, 255, 255, 255] ++ [9, 8] ∧
      (write_request_buf 1 [9, 8]).length = 8 + 2) :=
  ⟨(write_request_frame_layout 0 [9, 8]).1 (by decide),
   (write_request_frame_layout 1 [9, 8]).2 (by decide)⟩

/-- Claim C4: every device read of at least 4 bytes (and at most the buffer
size) whose leading 4-byte little-endian tag is not 32 makes `read_response`
return the "no messages" outcome `Ok(None)` — never an error — regardless of
the remaining buffer contents. -/
theorem read_response_nonuser_tag (data : List Nat)
    (h4 : 4 ≤ data.length) (hmax : data.length ≤ BUFFER_LEN)
    (htag : readI32le (padTo data) 0 ≠ some USER_SPACE_DATA_TYPE) :
    read_response (.bytes data) = .ok none := by
  unfold read_response
  dsimp only
  rw [if_neg (by omega)]
  have hsome : ∃ t, readI32le (padTo data) 0 = some t := by
    unfold readI32le readU32le
    rw [padTo_length data hmax, if_pos (by decide)]
    exact ⟨_, rfl⟩
  obtain ⟨t, ht⟩ := hsome
  rw [ht]
  dsimp only
  rw [if_neg (fun hEq => htag (by rw [ht, hEq]))]

/-- Witness for C4 at the 6-byte read `[1,0,0,0,9,9]` (tag 1). -/
theorem read_response_nonuser_tag_witness :
    4 ≤ ([1, 0, 0, 0, 9, 9] : List Nat).length ∧
    ([1, 0, 0, 0, 9, 9] : List Nat).length ≤ BUFFER_LEN ∧
    readI32le (padTo [1, 0, 0, 0, 9, 9]) 0 ≠ some USER_SPACE_DATA_TYPE ∧
    read_response (.bytes [1, 0, 0, 0, 9, 9]) = .ok none := by
  have htag : readI32le (padTo [1, 0, 0, 0, 9, 9]) 0 ≠ some USER_SPACE_DATA_TYPE := by
    rw [readI32le_padTo _ (by decide) 0]
    decide
  exact ⟨by decide, by decide, htag,
    read_response_nonuser_tag [1, 0, 0, 0, 9, 9] (by decide) (by decide) htag⟩

/-- Claim C5: every device read call that returns fewer than 4 bytes makes
`read_response` return the `DeviceReadFailed` error; the function returns at
that guard, before any tag or message parsing. -/
theorem read_response_short_read (data : List Nat) (h : data.length < 4) :
    read_response (.bytes data) = .err .deviceReadFailed := by
  unfold read_response
  dsimp only
  rw [if_pos h]

/-- Witness for C5 at the 2-byte read `[1,2]`. -/
theorem read_response_short_read_witness :
    ([1, 2] : List Nat).length < 4 ∧
    read_response (.bytes [1, 2]) = .err .deviceReadFailed :=
  ⟨by decide, read_response_short_read [1, 2] (by decide)⟩

/-- Claim C9 (implicit): the outgoing frame carries the 4-byte `-1` routing
marker if and only if `use_mdm` is strictly greater than zero; a zero or
negative `use_mdm` (the out-parameter of `determine_use_mdm` is initialized
to 0, and the ioctl may leave any `i32` there) produces a frame with no
marker. -/
theorem write_request_marker_iff (use_mdm : Int) (req : List Nat) :
    (write_request_buf use_mdm req
        = [32, 0, 0, 0] ++ [255, 255, 255, 255] ++ req ↔ use_mdm > 0) ∧
    (use_mdm ≤ 0 → write_request_buf use_mdm req = [32, 0, 0, 0] ++ req) := by
  have hno : ∀ h : ¬ use_mdm > 0, write_request_buf use_mdm req = [32, 0, 0, 0] ++ req := by
    intro h
    unfold write_request_buf
    rw [if_neg h, show i32le USER_SPACE_DATA_TYPE = [32, 0, 0, 0] from by decide]
    simp
  constructor
  · constructor
    · intro hEq
      by_contra hneg
      rw [hno hneg] at hEq
      have hL := congrArg List.length hEq
      simp only [List.length_append, List.length_cons, List.length_nil] at hL
      omega
    · intro h
      unfold write_request_buf
      rw [if_pos h, show i32le USER_SPACE_DATA_TYPE = [32, 0, 0, 0] from by decide,
        show i32le (-1) = [255, 255, 255, 255] from by decide]
  · intro h
    exact hno (by omega)

/-- Witness for C9 at `use_mdm = 1` (marker present) and `use_mdm = -3`
(no marker). -/
theorem write_request_marker_iff_witness :
    write_request_buf 1 [4] = [32, 0, 0, 0] ++ [255, 255, 255, 255] ++ [4] ∧
    ((-3 : Int) ≤ 0 ∧ write_request_buf (-3) [4] = [32, 0, 0, 0] ++ [4]) :=
  ⟨(write_request_marker_iff 1 [4]).1.mpr (by decide),
   by decide, (write_request_marker_iff (-3) [4]).2 (by decide)⟩

/-- Claim C10 (implicit): `read_response` parses the message count and
message lengths from the full fixed-size zero-initialized buffer rather than
only from the bytes actually returned; in particular a read of exactly 4
bytes whose tag is 32 succeeds, its message count taken from the zero
padding beyond the returned bytes, yielding the empty batch. -/
theorem read_response_exact4_parses_padding (data : List Nat)
    (h4 : data.length = 4)
    (htag : readI32le (padTo data) 0 = some USER_SPACE_DATA_TYPE) :
    read_response (.bytes data) = .ok (some []) := by
  unfold read_response
  dsimp only
  rw [if_neg (by omega), htag]
  dsimp only
  rw [if_pos rfl]
  have hcount : readU32le (padTo data) 4 = some 0 := by
    unfold readU32le
    rw [padTo_length data (by rw [h4]; decide), if_pos (by decide)]
    simp only [padTo_getD]
    rw [List.getD_eq_default _ _ (by omega), List.getD_eq_default _ _ (by omega),
      List.getD_eq_default _ _ (by omega), List.getD_eq_default _ _ (by omega)]
  rw [hcount]
  rfl

/-- Witness for C10 at the 4-byte read `[32,0,0,0]`. -/
theorem read_response_exact4_parses_padding_witness :
    ([32, 0, 0, 0] : List Nat).length = 4 ∧
    readI32le (padTo [32, 0, 0, 0]) 0 = some USER_SPACE_DATA_TYPE ∧
    read_response (.bytes [32, 0, 0, 0]) = .ok (some []) := by
  have htag : readI32le (padTo [32, 0, 0, 0]) 0 = some USER_SPACE_DATA_TYPE := by
    rw [readI32le_padTo _ (by decide) 0]
    decide
  exact ⟨by decide, htag, read_response_exact4_parses_padding [32, 0, 0, 0] rfl htag⟩

/-- Counterexample to claim C1 as stated: the 12-byte read
`[32,0,0,0, 1,0,0,0, 5,0,0,0]` declares one message of length 5, so its
cumulative declared lengths (8 + 4 + 5 = 17) exceed the 12 bytes actually
returned; yet `read_response` does NOT return an IO/short-read error — it
succeeds, and the message's five bytes are taken from the buffer's zero
padding beyond the returned bytes. -/
theorem read_response_overrun_reads_padding :
    read_response (.bytes [32, 0, 0, 0, 1, 0, 0, 0, 5, 0, 0, 0])
      = .ok (some [[0, 0, 0, 0, 0]]) ∧
    read_response (.bytes [32, 0, 0, 0, 1, 0, 0, 0, 5, 0, 0, 0]) ≠ .err .ioError ∧
    read_response (.bytes [32, 0, 0, 0, 1, 0, 0, 0, 5, 0, 0, 0])
      ≠ .err .deviceReadFailed := by
  have h := read_response_eq_fast [32, 0, 0, 0, 1, 0, 0, 0, 5, 0, 0, 0] (by decide)
  refine ⟨?_, ?_, ?_⟩ <;> rw [h] <;> decide

/-- Claim C1 as amended: the parse is bounded by the fixed zero-initialized
`BUFFER_LEN` buffer, not by the bytes actually returned.  Every successful
batch's cumulative declared lengths (header included) fit within
`BUFFER_LEN`, every message byte comes from the buffer — a returned byte or a
zero of the padding — never from out of bounds; and a declared message length
that would read past the end of the fixed buffer yields an IO error. -/
theorem read_response_bounded_by_buffer (data : List Nat)
    (hlen : data.length ≤ BUFFER_LEN) :
    (∀ msgs, read_response (.bytes data) = .ok (some msgs) →
      8 + msgsSize msgs ≤ BUFFER_LEN ∧
      ∀ m ∈ msgs, ∀ b ∈ m, b ∈ data ∨ b = 0) ∧
    (∀ pos n len, readU32le (padTo data) pos = some len →
      BUFFER_LEN < pos + 4 + len →
      readMessages (padTo data) pos (n + 1) = .err .ioError) := by
  constructor
  · intro msgs hok
    unfold read_response at hok
    dsimp only at hok
    by_cases h4 : data.length < 4
    · rw [if_pos h4] at hok
      exact absurd hok (by simp)
    · rw [if_neg h4] at hok
      cases ht : readI32le (padTo data) 0 with
      | none => rw [ht] at hok; exact absurd hok (by simp)
      | some tag =>
        rw [ht] at hok
        dsimp only at hok
        by_cases htag : tag = USER_SPACE_DATA_TYPE
        · rw [if_pos htag] at hok
          cases hc : readU32le (padTo data) 4 with
          | none => rw [hc] at hok; exact absurd hok (by simp)
          | some n =>
            rw [hc] at hok
            dsimp only at hok
            have hb := readMessages_ok_bounds (padTo data) n 8 msgs
              (by rw [padTo_length data hlen]; decide) hok
            rw [padTo_length data hlen] at hb
            refine ⟨by omega, ?_⟩
            intro m hm b hbm
            rcases List.mem_append.mp (hb.2 m hm b hbm) with h1 | h1
            · exact Or.inl h1
            · exact Or.inr (List.eq_of_mem_replicate h1)
        · rw [if_neg htag] at hok
          exact absurd hok (by simp)
  · intro pos n len hu hgt
    unfold readMessages
    rw [hu]
    dsimp only
    rw [padTo_length data hlen, if_neg (by omega)]

/-- Witness for the amended C1: a successful parse (the 4-byte read
`[32,0,0,0]`, empty batch) satisfies the buffer bound and the
membership property. -/
theorem read_response_bounded_by_buffer_witness :
    ([32, 0, 0, 0] : List Nat).length ≤ BUFFER_LEN ∧
    read_response (.bytes [32, 0, 0, 0]) = .ok (some []) ∧
    (8 + msgsSize [] ≤ BUFFER_LEN ∧
      ∀ m ∈ ([] : List (List Nat)), ∀ b ∈ m, b ∈ ([32, 0, 0, 0] : List Nat) ∨ b = 0) := by
  have hfast := read_response_eq_fast [32, 0, 0, 0] (by decide)
  have hok : read_response (.bytes [32, 0, 0, 0]) = .ok (some []) := by
    rw [hfast]; decide
  exact ⟨by decide, hok,
    (read_response_bounded_by_buffer [32, 0, 0, 0] (by decide)).1 [] hok⟩

/-- Claim C6: `enable_frame_readwrite` issues the legacy-convention ioctl
first; the extended form (parameter block `{mode, -1, 0}`) is issued exactly
when the legacy call fails; the result is `InitializationFailed` exactly when
both calls fail; and such a failure propagates through `DiagDevice.new`
(which reached the call, i.e. `open` succeeded), aborting construction. -/
theorem enable_frame_readwrite_fallback (env : DeviceEnv) :
    ((enable_frame_readwrite env.legacyRet env.extendedRet).1.head? = some .legacy) ∧
    (SwitchCall.extended ∈ (enable_frame_readwrite env.legacyRet env.extendedRet).1
      ↔ env.legacyRet < 0) ∧
    ((enable_frame_readwrite env.legacyRet env.extendedRet).2
        = .error .initializationFailed
      ↔ (env.legacyRet < 0 ∧ env.extendedRet < 0)) ∧
    ((enable_frame_readwrite env.legacyRet env.extendedRet).2
        = .error .initializationFailed →
      ∀ fd, env.openResult = some fd →
        DiagDevice.new env = .error .initializationFailed) := by
  by_cases h1 : env.legacyRet < 0
  · by_cases h2 : env.extendedRet < 0
    · refine ⟨by simp [enable_frame_readwrite, h1, h2], ?_, ?_, ?_⟩
      · simp [enable_frame_readwrite, h1, h2]
      · simp [enable_frame_readwrite, h1, h2]
      · intro _ fd hfd
        simp [DiagDevice.new, enable_frame_readwrite, h1, h2, hfd]
    · refine ⟨by simp [enable_frame_readwrite, h1, h2], ?_, ?_, ?_⟩
      · simp [enable_frame_readwrite, h1, h2]
      · simp [enable_frame_readwrite, h1, h2]
      · intro hcontra
        exact absurd hcontra (by simp [enable_frame_readwrite, h1, h2])
  · refine ⟨by simp [enable_frame_readwrite, h1], ?_, ?_, ?_⟩
    · simp [enable_frame_readwrite, h1]
    · simp [enable_frame_readwrite, h1]
    · intro hcontra
      exact absurd hcontra (by simp [enable_frame_readwrite, h1])

/-- Witness for C6 at an environment where `open` succeeds (fd 3) and both
mode-switch calls fail. -/
theorem enable_frame_readwrite_fallback_witness :
    ((enable_frame_readwrite (-1) (-1)).1.head? = some .legacy) ∧
    SwitchCall.extended ∈ (enable_frame_readwrite (-1) (-1)).1 ∧
    (enable_frame_readwrite (-1) (-1)).2 = .error .initializationFailed ∧
    DiagDevice.new ⟨some 3, -1, -1, 0, 0⟩ = .error .initializationFailed := by
  have h := enable_frame_readwrite_fallback ⟨some 3, -1, -1, 0, 0⟩
  exact ⟨h.1, (h.2.1).mpr (by decide), (h.2.2.1).mpr ⟨by decide, by decide⟩,
    h.2.2.2 ((h.2.2.1).mpr ⟨by decide, by decide⟩) 3 rfl⟩

/-- Claim C8: the `use_mdm` flag of a `DiagDevice` never changes after
construction: `read_response` and `write_request` return the struct with the
same `use_mdm` (the Rust bodies assign no field), and every successful clone
carries the `use_mdm` of the device it was cloned from. -/
theorem use_mdm_immutable (d : DiagDevice) (rr : ReadResult) (req : List Nat)
    (writeRet : Int) (cloneResult : Option Nat) (c : DiagDevice) :
    ((read_response_st d rr).1.use_mdm = d.use_mdm) ∧
    ((write_request d req writeRet).1.use_mdm = d.use_mdm) ∧
    (try_clone d cloneResult = .ok c → c.use_mdm = d.use_mdm) := by
  refine ⟨rfl, rfl, ?_⟩
  intro h
  cases cloneResult with
  | none => exact absurd h (by simp [try_clone])
  | some fd =>
    have hc : DiagDevice.mk fd d.use_mdm = c := by
      simpa [try_clone] using h
    rw [← hc]

/-- Witness for C8 at the device `⟨fd 1, use_mdm 5⟩` and a clone to fd 2. -/
theorem use_mdm_immutable_witness :
    ((read_response_st ⟨1, 5⟩ .ioErr).1.use_mdm = (DiagDevice.mk 1 5).use_mdm) ∧
    ((write_request ⟨1, 5⟩ [7] 0).1.use_mdm = (DiagDevice.mk 1 5).use_mdm) ∧
    try_clone ⟨1, 5⟩ (some 2) = .ok ⟨2, 5⟩ ∧
    (DiagDevice.mk 2 5).use_mdm = (DiagDevice.mk 1 5).use_mdm := by
  have h := use_mdm_immutable ⟨1, 5⟩ .ioErr [7] 0 (some 2) ⟨2, 5⟩
  exact ⟨h.1, h.2.1, rfl, h.2.2 rfl⟩

end Rayhunter
